import Mathlib

/-!
# Verification of the FoxPro DBF/FPT reader (`go-foxpro-dbf`)

A shallow embedding of `reader.go` (package `dbf`) and of the vendored
Julian-day helper (package `jd`).  Go byte slices are modelled as
`List Nat` (each element a byte value `< 256`), Go machine integers as
`Nat`/`Int` with explicit wrap-around where the Go code can overflow,
and fallible Go calls as result types that distinguish

* a normal value,
* a returned `error` value, and
* a Go runtime panic (index-out-of-range / slice-bounds violations),

because the functions under study contain bounds checks whose purpose is
exactly to prevent such panics.

External collaborators (the injected charset `Decoder`, and byte sources
behind the `ReaderAtSeeker` interface) are modelled abstractly: the
decoder as a function `List Nat → Except Unit (List Nat)`, the primary
byte source as a `List Nat` read with `io.ReaderAt` semantics, and the
memo (FPT) source as an abstract deterministic reader that may return
short reads, as the `io.Reader` contract permits.
-/

/-- Errors of the `dbf` package.  The first six mirror the package-level
`errors.New` values of `reader.go`; the rest model the `fmt.Errorf` /
library errors produced inline, and `ioError` stands for an error
propagated verbatim from the underlying byte source. -/
inductive DbfError where
  | errEOF
  | errBOF
  | errIncomplete
  | errInvalidField
  | errNoFPTFile
  | errNoDBFFile
  | errNoDeleteFlag
  | errUnsupportedFieldType (t : Nat)
  | errUntestedVersion (v : Nat)
  | ioError (s : String)
  | parseError (s : String)
  | errDecode
  | errOnField (col : Nat) (e : DbfError)
  deriving DecidableEq, Repr

/-- Result of a Go call returning `(T, error)` where the caller discards
the value whenever the error is non-nil.  `crash` models a Go runtime
panic (out-of-range index or slice bounds). -/
inductive GoResult (α : Type) where
  | ok (a : α)
  | err (e : DbfError)
  | crash
  deriving DecidableEq, Repr

/-- The Go `time.Time` values produced by this package: either the zero
`time.Time{}` value or a value built by `time.Date(y, m, d, 0, 0, 0,
nsec, time.UTC)`.  `time.Date` is external to the repository; it is
treated as a free constructor of its arguments. -/
inductive GoTime where
  | zero
  | date (y : Int) (m : Int) (d : Int) (nsec : Int)
  deriving DecidableEq, Repr

/-- The dynamically typed (`interface{}`) field values returned by the
decoder.  `f64bits` keeps the bit pattern handed to
`math.Float64frombits` (a bijection onto `float64`, so nothing is lost);
`f64` carries the exact rational value of a decimal-string or currency
conversion (the `float64` rounding of that exact value is immaterial to
every property studied here, in particular to its sign). -/
inductive GoValue where
  | str (s : List Nat)
  | bytes (b : List Nat)
  | i32 (n : Int)
  | i64 (n : Int)
  | f64 (q : ℚ)
  | f64bits (bits : Nat)
  | boolean (b : Bool)
  | time (t : GoTime)
  deriving DecidableEq, Repr

/-- Byte `i` of a byte list (0 when absent; the callers below only use
it after an explicit length check, mirroring Go's bounds panics). -/
def byteAt (l : List Nat) (i : Nat) : Nat := (l.get? i).getD 0

/-- `binary.LittleEndian.Uint16` on the first two bytes. -/
def uint16le (l : List Nat) : Nat := byteAt l 0 + 256 * byteAt l 1

/-- `binary.LittleEndian.Uint32` on the first four bytes. -/
def uint32le (l : List Nat) : Nat :=
  byteAt l 0 + 256 * byteAt l 1 + 65536 * byteAt l 2 + 16777216 * byteAt l 3

/-- `binary.BigEndian.Uint32` on the first four bytes. -/
def uint32be (l : List Nat) : Nat :=
  16777216 * byteAt l 0 + 65536 * byteAt l 1 + 256 * byteAt l 2 + byteAt l 3

/-- `binary.LittleEndian.Uint64` on the first eight bytes. -/
def uint64le (l : List Nat) : Nat :=
  byteAt l 0 + 256 * byteAt l 1 + 65536 * byteAt l 2 + 16777216 * byteAt l 3 +
  4294967296 * byteAt l 4 + 1099511627776 * byteAt l 5 +
  281474976710656 * byteAt l 6 + 72057594037927936 * byteAt l 7

/-- Reinterpret an unsigned 32-bit value as Go's `int32`. -/
def int32ofUint (u : Nat) : Int :=
  if u < 2 ^ 31 then (u : Int) else (u : Int) - 2 ^ 32

/-- Reinterpret an unsigned 64-bit value as Go's `int64`
(two's complement). -/
def int64ofUint (u : Nat) : Int :=
  if u < 2 ^ 63 then (u : Int) else (u : Int) - 2 ^ 64

/-- Go two's-complement `int64` wrap-around: the value a Go `int64`
computation yields for the mathematical integer `x`. -/
def wrap64 (x : Int) : Int := (x + 2 ^ 63) % 2 ^ 64 - 2 ^ 63

/-- Go integer division (`/` on Go ints truncates toward zero). -/
def goDiv (a b : Int) : Int := Int.tdiv a b

namespace jd

/-- `jd.J2YMD` (vendored `github.com/carlosjhr64/jd`): converts a Julian
day number to `(year, month, day)`.  Verbatim translation; Go's `/` on
`int` truncates toward zero, hence `goDiv`. -/
def J2YMD (d : Int) : Int × Int × Int :=
  let l := d + 68569
  let n := goDiv (4 * l) 146097
  let l := l - goDiv (146097 * n + 3) 4
  let i := goDiv (4000 * (l + 1)) 1461001
  let l := l - goDiv (1461 * i) 4 + 31
  let j := goDiv (80 * l) 2447
  let k := l - goDiv (2447 * j) 80
  let l := goDiv j 11
  let j := j + 2 - 12 * l
  let i := 100 * (n - 49) + i + l
  (i, j, k)

end jd

/-- `DBFHeader` of `reader.go` (field widths noted; `binary.Read` with
`binary.LittleEndian` fills it from the first 30 bytes of the file). -/
structure DBFHeader where
  fileVersion : Nat     -- byte
  modYear : Nat         -- uint8
  modMonth : Nat        -- uint8
  modDay : Nat          -- uint8
  numRec : Nat          -- uint32
  firstRec : Nat        -- uint16
  recLen : Nat          -- uint16
  reserved : List Nat   -- [16]byte
  tableFlags : Nat      -- byte
  codePage : Nat        -- byte
  deriving DecidableEq, Repr

/-- `FieldHeader` of `reader.go` (one 32-byte descriptor on disk;
`binary.Read` actually consumes 33 bytes for it, see
`readHeaderFields`). -/
structure FieldHeader where
  name : List Nat       -- [11]byte
  type : Nat            -- byte
  pos : Nat             -- uint32
  len : Nat             -- uint8
  decimals : Nat        -- uint8
  flags : Nat           -- byte
  next : Nat            -- uint32
  step : Nat            -- uint16
  reserved : List Nat   -- [8]byte
  deriving DecidableEq, Repr

/-- `FPTHeader` of `reader.go` (memo-file header, big-endian). -/
structure FPTHeader where
  nextFree : Nat        -- uint32
  unused : List Nat     -- [2]byte
  blockSize : Nat       -- uint16
  deriving DecidableEq, Repr

/-- Abstract model of the memo byte source (`ReaderAtSeeker`): a
deterministic reader.  `seek p` is the error of `Seek(p, 0)` (`none` =
success); `read p n` gives the bytes and error of a single `Read` call
issued at position `p` with an `n`-byte buffer.  The `io.Reader`
contract allows `read` to return fewer than `n` bytes without an
error. -/
structure MemoReader where
  seek : Nat → Option String
  read : Nat → Nat → List Nat × Option String

/-- `Record` of `reader.go`: the deleted flag plus the decoded field
values; `data` is Go's `[]interface{}`, whose entries are `nil`
(`none`) until assigned. -/
structure Record where
  Deleted : Bool
  data : List (Option GoValue)
  deriving DecidableEq, Repr

/-- The main `DBF` struct.  The primary byte source `r` is modelled as
the full byte contents read with `io.ReaderAt` semantics; disk-file
handles (`f`, `fptf`) play no part in the decoding logic and are
omitted.  `dec` is the injected charset `Decoder`. -/
structure DBF where
  header : DBFHeader
  fptheader : Option FPTHeader
  r : List Nat
  fptr : Option MemoReader
  dec : List Nat → Except Unit (List Nat)
  fields : List FieldHeader
  recpointer : Nat      -- uint32

/-- The `UTF8Decoder` of `decoder.go`: returns its input unchanged. -/
def UTF8Decoder : List Nat → Except Unit (List Nat) := fun b => .ok b

/-- `FieldHeader.FieldName`: the name with trailing `0x00` bytes
trimmed (`bytes.TrimRight(f.Name[:], "\x00")`). -/
def FieldHeader.FieldName (f : FieldHeader) : List Nat :=
  (f.name.reverse.dropWhile (· = 0)).reverse

/-- `DBF.NumFields`: `uint16(len(dbf.fields))` (the cast truncates
modulo 2^16, as in Go). -/
def DBF.NumFields (dbf : DBF) : Nat := dbf.fields.length % 65536

/-- `DBF.FieldNames`. -/
def DBF.FieldNames (dbf : DBF) : List (List Nat) :=
  dbf.fields.map FieldHeader.FieldName

/-- `DBF.GoTo`: absolute cursor positioning; clamps to `NumRec` and
reports `ErrEOF` when out of range. -/
def DBF.GoTo (dbf : DBF) (recno : Nat) : DBF × Option DbfError :=
  if dbf.header.numRec ≤ recno then
    ({ dbf with recpointer := dbf.header.numRec }, some .errEOF)
  else
    ({ dbf with recpointer := recno }, none)

/-- `DBF.Skip`: `newval := int64(dbf.recpointer) + offset` is computed
in Go `int64` arithmetic, hence the `wrap64`. -/
def DBF.Skip (dbf : DBF) (offset : Int) : DBF × Option DbfError :=
  let newval := wrap64 ((dbf.recpointer : Int) + offset)
  if (dbf.header.numRec : Int) ≤ newval then
    ({ dbf with recpointer := dbf.header.numRec }, some .errEOF)
  else if newval < 0 then
    ({ dbf with recpointer := 0 }, some .errBOF)
  else
    ({ dbf with recpointer := newval.toNat }, none)

/-- `DBF.EOF`. -/
def DBF.EOF (dbf : DBF) : Bool := dbf.header.numRec ≤ dbf.recpointer

/-- `DBF.BOF`. -/
def DBF.BOF (dbf : DBF) : Bool := dbf.recpointer = 0

/-- `io.ReaderAt.ReadAt` on the primary source: fills an `n`-byte
buffer starting at `pos`; returns the buffer (zero beyond the bytes
obtained), the count read, and an error exactly when fewer than `n`
bytes were available. -/
def listReadAt (r : List Nat) (pos n : Nat) : List Nat × Nat × Option DbfError :=
  let avail := (r.drop pos).take n
  (avail ++ List.replicate (n - avail.length) 0, avail.length,
    if avail.length = n then none else some (.ioError "EOF"))

/-- `DBF.readField`: raw bytes of one field of one record.  The Go
bounds check is `fieldpos < 0 || fieldpos > int(dbf.NumFields())`
(note: `>`, not `>=`), after which `dbf.fields[fieldpos]` is indexed;
an out-of-range index there is a runtime panic (`crash`). -/
def DBF.readField (dbf : DBF) (recordpos : Nat) (fieldpos : Int) : GoResult (List Nat) :=
  if dbf.header.numRec ≤ recordpos then .err .errEOF
  else if fieldpos < 0 ∨ (dbf.NumFields : Int) < fieldpos then .err .errInvalidField
  else
    match dbf.fields.get? fieldpos.toNat with
    | none => .crash
    | some f =>
      let pos := dbf.header.firstRec + recordpos * dbf.header.recLen + f.pos
      let res := listReadAt dbf.r pos f.len
      match res.2.2 with
      | some e => .err e
      | none => if res.2.1 ≠ f.len then .err .errIncomplete else .ok res.1

/-- `DBF.readRecord`: raw bytes of one whole record. -/
def DBF.readRecord (dbf : DBF) (recordpos : Nat) : GoResult (List Nat) :=
  if dbf.header.numRec ≤ recordpos then .err .errEOF
  else
    let pos := dbf.header.firstRec + recordpos * dbf.header.recLen
    let res := listReadAt dbf.r pos dbf.header.recLen
    match res.2.2 with
    | some e => .err e
    | none => if res.2.1 ≠ dbf.header.recLen then .err .errIncomplete else .ok res.1

/-- `DBF.DeletedAt`: reads only the 1-byte deletion flag. -/
def DBF.DeletedAt (dbf : DBF) (recordpos : Nat) : GoResult Bool :=
  if dbf.header.numRec ≤ recordpos then .err .errEOF
  else
    let pos := dbf.header.firstRec + recordpos * dbf.header.recLen
    let res := listReadAt dbf.r pos 1
    match res.2.2 with
    | some e => .err e
    | none => if res.2.1 ≠ 1 then .err .errIncomplete else .ok (byteAt res.1 0 = 42)

/-- `DBF.Deleted`. -/
def DBF.Deleted (dbf : DBF) : GoResult Bool := dbf.DeletedAt dbf.recpointer

/-- Result of `readFPT` / `parseMemo` (`([]byte, bool, error)`): payload
bytes, the is-text flag, and the error slot.  `crash` models the panic
of `binary.LittleEndian.Uint32` on a block reference shorter than 4
bytes (and of a nil `fptheader` dereference). -/
inductive FPTResult where
  | crash
  | ret (memo : List Nat) (isText : Bool) (err : Option DbfError)
  deriving DecidableEq, Repr

/-- `DBF.readFPT`: resolves one memo block.  Mirrors the source: the
byte count of the 8-byte header `Read` is discarded (`_, err := ...`),
so bytes the reader did not supply remain zero in `hbuf`; the payload
`Read`'s count *is* checked against the declared length. -/
def DBF.readFPT (dbf : DBF) (blockdata : List Nat) : FPTResult :=
  match dbf.fptr with
  | none => .ret [] false (some .errNoFPTFile)
  | some r =>
    if blockdata.length < 4 then .crash
    else
      match dbf.fptheader with
      | none => .crash
      | some fh =>
        let block := uint32le blockdata
        let pos := fh.blockSize * block
        match r.seek pos with
        | some e => .ret [] false (some (.ioError e))
        | none =>
          let hres := r.read pos 8
          match hres.2 with
          | some e => .ret [] false (some (.ioError e))
          | none =>
            let got := hres.1.take 8
            let hbuf := got ++ List.replicate (8 - got.length) 0
            let sign := uint32be (hbuf.take 4)
            let leng := uint32be (hbuf.drop 4)
            if leng = 0 then .ret [] (sign == 1) none
            else
              let pres := r.read (pos + got.length) leng
              let buf := pres.1.take leng ++ List.replicate (leng - (pres.1.take leng).length) 0
              match pres.2 with
              | some e => .ret buf false (some (.ioError e))
              | none =>
                if (pres.1.take leng).length ≠ leng then .ret buf (sign == 1) (some .errIncomplete)
                else .ret buf (sign == 1) none

/-- `DBF.parseMemo`: resolves the block and, for text blocks, runs the
payload through the injected decoder. -/
def DBF.parseMemo (dbf : DBF) (raw : List Nat) : FPTResult :=
  match dbf.readFPT raw with
  | .crash => .crash
  | .ret memo isText err =>
    match err with
    | some e => .ret [] false (some e)
    | none =>
      if isText then
        match dbf.dec memo with
        | .error _ => .ret [] false (some .errDecode)
        | .ok m => .ret m isText none
      else .ret memo isText none

/-- Whitespace bytes trimmed by `strings.TrimSpace` (the ASCII subset;
the non-ASCII space code points cannot occur in the single-byte
encodings these numeric fields hold). -/
def isSpaceByte (b : Nat) : Bool :=
  b = 32 ∨ b = 9 ∨ b = 10 ∨ b = 11 ∨ b = 12 ∨ b = 13

/-- `strings.TrimSpace`. -/
def trimSpace (l : List Nat) : List Nat :=
  ((l.dropWhile isSpaceByte).reverse.dropWhile isSpaceByte).reverse

/-- Is `b` an ASCII digit? -/
def isDigitByte (b : Nat) : Bool := 48 ≤ b ∧ b ≤ 57

/-- Numeric value of a non-empty list of ASCII digits. -/
def digitsVal (l : List Nat) : Nat := l.foldl (fun a b => 10 * a + (b - 48)) 0

/-- `strconv.ParseInt(s, 10, 64)` on a non-empty trimmed string:
an optional sign followed by at least one decimal digit, rejecting
values outside the `int64` range.  (`strconv` is external to the
repository; base-10/bitSize-64 is the only form the source uses, and
on a range error the clamped value the Go call also returns is
discarded by every caller.) -/
def goParseInt (l : List Nat) : Except DbfError Int :=
  let core : List Nat → Option Nat := fun ds =>
    if ds ≠ [] ∧ ds.all isDigitByte then some (digitsVal ds) else none
  let signed : Option Int :=
    match l with
    | 43 :: rest => (core rest).map (fun n => (n : Int))
    | 45 :: rest => (core rest).map (fun n => -(n : Int))
    | _ => (core l).map (fun n => (n : Int))
  match signed with
  | none => .error (.parseError "invalid syntax")
  | some v =>
    if v < -(2 ^ 63) ∨ (2 ^ 63 : Int) ≤ v then .error (.parseError "value out of range")
    else .ok v

/-- `DBF.parseNumericInt`: trim, empty ⇒ 0, else `strconv.ParseInt`. -/
def DBF.parseNumericInt (_dbf : DBF) (raw : List Nat) : Except DbfError Int :=
  let trimmed := trimSpace raw
  if trimmed = [] then .ok 0 else goParseInt trimmed

/-- Split a byte string at the first `e`/`E`. -/
def splitExp (l : List Nat) : List Nat × Option (List Nat) :=
  match l.findIdx? (fun b => b = 101 ∨ b = 69) with
  | none => (l, none)
  | some i => (l.take i, some (l.drop (i + 1)))

/-- Mantissa of a decimal literal: digits with at most one point,
at least one digit in total; value and number of fraction digits. -/
def parseMantissa (l : List Nat) : Option (Nat × Nat) :=
  match l.findIdx? (fun b => b = 46) with
  | none => if l ≠ [] ∧ l.all isDigitByte then some (digitsVal l, 0) else none
  | some i =>
    let ip := l.take i
    let fp := l.drop (i + 1)
    if (ip ≠ [] ∨ fp ≠ []) ∧ ip.all isDigitByte ∧ fp.all isDigitByte ∧
        fp.all (fun b => b ≠ 46) then
      some (digitsVal (ip ++ fp), fp.length)
    else none

/-- `strconv.ParseFloat(s, 64)` on a non-empty trimmed string, for the
plain decimal forms `[+|-] digits [. digits] [ (e|E) [+|-] digits ]`
(the only forms a DBF `N`/`F` field can hold; hexadecimal, `Inf`/`NaN`
and underscore forms of the external `strconv` syntax are out of
scope).  The exact rational value is kept; `float64` rounding of it is
immaterial here. -/
def goParseFloat (l : List Nat) : Except DbfError ℚ :=
  let unsigned : List Nat → Option ℚ := fun m =>
    let p := splitExp m
    match parseMantissa p.1 with
    | none => none
    | some mv =>
      match p.2 with
      | none => some ((mv.1 : ℚ) / 10 ^ mv.2)
      | some ex =>
        let expPart : Option Int :=
          match ex with
          | 43 :: rest => if rest ≠ [] ∧ rest.all isDigitByte then some (digitsVal rest) else none
          | 45 :: rest => if rest ≠ [] ∧ rest.all isDigitByte then some (-(digitsVal rest : Int)) else none
          | _ => if ex ≠ [] ∧ ex.all isDigitByte then some (digitsVal ex) else none
        expPart.map (fun e => (mv.1 : ℚ) / 10 ^ mv.2 * (10 : ℚ) ^ e)
  let signed : Option ℚ :=
    match l with
    | 43 :: rest => unsigned rest
    | 45 :: rest => (unsigned rest).map (fun q => -q)
    | _ => unsigned l
  match signed with
  | none => .error (.parseError "invalid syntax")
  | some q => .ok q

/-- `DBF.parseFloat`: trim, empty ⇒ 0.0, else `strconv.ParseFloat`. -/
def DBF.parseFloat (_dbf : DBF) (raw : List Nat) : Except DbfError ℚ :=
  let trimmed := trimSpace raw
  if trimmed = [] then .ok 0 else goParseFloat trimmed

/-- `DBF.toUTF8String` via the injected decoder.  On a decoder error Go
returns the raw bytes *and* the error; every caller discards the value
when the error is non-nil, so the error alone is kept. -/
def DBF.toUTF8String (dbf : DBF) (raw : List Nat) : GoResult (List Nat) :=
  match dbf.dec raw with
  | .error _ => .err .errDecode
  | .ok u => .ok u

/-- Number of days of month `m` in year `y` (proleptic Gregorian, the
calendar `time.Parse` validates against). -/
def daysInMonth (y m : Nat) : Nat :=
  if m = 2 then
    if y % 4 = 0 ∧ (y % 100 ≠ 0 ∨ y % 400 = 0) then 29 else 28
  else if m = 4 ∨ m = 6 ∨ m = 9 ∨ m = 11 then 30
  else 31

/-- `time.Parse("20060102", s)`: exactly eight ASCII digits forming a
valid calendar date (month 1–12, day within the month).  `time` is
external to the repository; a valid parse yields the value
`time.Date(y, m, d, 0, 0, 0, 0, time.UTC)`. -/
def parseYYYYMMDD (raw : List Nat) : Option (Nat × Nat × Nat) :=
  if raw.length = 8 ∧ raw.all isDigitByte then
    let y := digitsVal (raw.take 4)
    let m := digitsVal ((raw.drop 4).take 2)
    let d := digitsVal (raw.drop 6)
    if 1 ≤ m ∧ m ≤ 12 ∧ 1 ≤ d ∧ d ≤ daysInMonth y m then some (y, m, d) else none
  else none

/-- `DBF.parseDate`: all-spaces ⇒ the zero `time.Time`, else a strict
`"20060102"` parse. -/
def DBF.parseDate (_dbf : DBF) (raw : List Nat) : Except DbfError GoTime :=
  if raw = List.replicate 8 32 then .ok .zero
  else
    match parseYYYYMMDD raw with
    | some ymd => .ok (.date ymd.1 ymd.2.1 ymd.2.2 0)
    | none => .error (.parseError "cannot parse date")

/-- `DBF.parseDateTime`: a `T` value is two little-endian 32-bit
integers (Julian day, then milliseconds since midnight).  A resulting
year outside `[0, 9999]` yields the zero `time.Time` and **no error**
(the tolerance the source documents with a TODO comment). -/
def DBF.parseDateTime (_dbf : DBF) (raw : List Nat) : Except DbfError GoTime :=
  if raw.length ≠ 8 then .error .errInvalidField
  else
    let julDat : Int := uint32le (raw.take 4)
    let mSec : Int := uint32le (raw.drop 4)
    let ymd := jd.J2YMD julDat
    if ymd.1 < 0 ∨ 9999 < ymd.1 then .ok .zero
    else .ok (.date ymd.1 ymd.2.1 ymd.2.2 (mSec * 1000000))

/-- `DBF.fieldDataToValue`: the type-dispatch matrix.  The Go bounds
check is `fieldpos < 0 || len(dbf.fields) < fieldpos` (note: `<`, not
`<=`), after which `dbf.fields[fieldpos]` is indexed; `fieldpos =
len(dbf.fields)` therefore passes the check and panics (`crash`).
The fixed-width branches (`I`, `B`, `Y`) panic when the raw slice is
shorter than the word `encoding/binary` reads from it. -/
def DBF.fieldDataToValue (dbf : DBF) (raw : List Nat) (fieldpos : Int) : GoResult GoValue :=
  if fieldpos < 0 ∨ (dbf.fields.length : Int) < fieldpos then .err .errInvalidField
  else
    match dbf.fields.get? fieldpos.toNat with
    | none => .crash
    | some f =>
      if f.type = 77 then        -- "M"
        match dbf.parseMemo raw with
        | .crash => .crash
        | .ret memo isText err =>
          match err with
          | some e => .err e
          | none => if isText then .ok (.str memo) else .ok (.bytes memo)
      else if f.type = 67 then   -- "C"
        match dbf.toUTF8String raw with
        | .ok u => .ok (.str u)
        | .err e => .err e
        | .crash => .crash
      else if f.type = 73 then   -- "I"
        if raw.length < 4 then .crash else .ok (.i32 (int32ofUint (uint32le raw)))
      else if f.type = 66 then   -- "B"
        if raw.length < 8 then .crash else .ok (.f64bits (uint64le raw))
      else if f.type = 68 then   -- "D"
        match dbf.parseDate raw with
        | .ok t => .ok (.time t)
        | .error e => .err e
      else if f.type = 84 then   -- "T"
        match dbf.parseDateTime raw with
        | .ok t => .ok (.time t)
        | .error e => .err e
      else if f.type = 76 then   -- "L"
        .ok (.boolean (raw = [84]))
      else if f.type = 86 then   -- "V"
        .ok (.bytes raw)
      else if f.type = 89 then   -- "Y"
        if raw.length < 8 then .crash
        else .ok (.f64 ((uint64le raw : ℚ) / 10000))
      else if f.type = 78 then   -- "N"
        if f.decimals = 0 then
          match dbf.parseNumericInt raw with
          | .ok v => .ok (.i64 v)
          | .error e => .err e
        else
          match dbf.parseFloat raw with
          | .ok q => .ok (.f64 q)
          | .error e => .err e
      else if f.type = 70 then   -- "F"
        match dbf.parseFloat raw with
        | .ok q => .ok (.f64 q)
        | .error e => .err e
      else
        .err (.errUnsupportedFieldType f.type)

/-- Result of `bytesToRecord` / `Record()` / `RecordAt` — Go's
`(*Record, error)` pair: the record pointer (possibly `nil` = `none`)
together with the error slot, or a runtime panic. -/
inductive RecResult where
  | crash
  | res (rec : Option Record) (err : Option DbfError)
  deriving DecidableEq, Repr

/-- The field loop of `bytesToRecord`: `n` fields remain, `i` is the
current index, `offset` the running `uint16` offset into `data`, and
`vals` the `rec.data` slice (entries `none` until assigned).  On a
field decode error the partially filled record is returned together
with the error (`return rec, err` in the source).  The slice expression
`data[offset : offset+uint16(Len)]` panics when the bounds are
invalid. -/
def DBF.b2rLoop (dbf : DBF) (data : List Nat) (del : Bool) :
    Nat → Nat → Nat → List (Option GoValue) → RecResult
  | 0, _, _, vals => .res (some ⟨del, vals⟩) none
  | n + 1, i, offset, vals =>
    match dbf.fields.get? i with
    | none => .crash
    | some f =>
      let hi := (offset + f.len) % 65536
      if offset ≤ hi ∧ hi ≤ data.length then
        match dbf.fieldDataToValue ((data.drop offset).take (hi - offset)) (i : Int) with
        | .crash => .crash
        | .err e => .res (some ⟨del, vals⟩) (some e)
        | .ok v => dbf.b2rLoop data del n (i + 1) hi (vals.set i (some v))
      else .crash

/-- `DBF.bytesToRecord`: checks the delete flag (`0x2A` deleted, `0x20`
active, anything else an error with a `nil` record), then decodes the
fields in order. -/
def DBF.bytesToRecord (dbf : DBF) (data : List Nat) : RecResult :=
  match data.head? with
  | none => .crash
  | some b0 =>
    let del := b0 = 42
    if ¬del ∧ b0 ≠ 32 then .res none (some .errNoDeleteFlag)
    else dbf.b2rLoop data del dbf.NumFields 0 1 (List.replicate dbf.NumFields none)

/-- `DBF.RecordAt`: read record `nrec` and decode it; a read error
yields a `nil` record with the error. -/
def DBF.RecordAt (dbf : DBF) (nrec : Nat) : RecResult :=
  match dbf.readRecord nrec with
  | .crash => .crash
  | .err e => .res none (some e)
  | .ok data => dbf.bytesToRecord data

/-- `DBF.Record`: decode the record under the cursor. -/
def DBF.Record (dbf : DBF) : RecResult := dbf.RecordAt dbf.recpointer

/-- `Record.Field`: the Go bounds check is
`pos < 0 || len(r.data) < pos`; `pos = len(r.data)` passes it and
`r.data[pos]` panics. -/
def Record.Field (r : Record) (pos : Int) : GoResult (Option GoValue) :=
  if pos < 0 ∨ (r.data.length : Int) < pos then .err .errInvalidField
  else
    match r.data.get? pos.toNat with
    | none => .crash
    | some v => .ok v

/-- `Record.FieldSlice`. -/
def Record.FieldSlice (r : Record) : List (Option GoValue) := r.data

/-- `DBF.Field`: read one field of the record under the cursor and
decode it. -/
def DBF.Field (dbf : DBF) (fieldpos : Int) : GoResult GoValue :=
  match dbf.readField dbf.recpointer fieldpos with
  | .crash => .crash
  | .err e => .err e
  | .ok data => dbf.fieldDataToValue data fieldpos

/-- Insert-or-overwrite into the name→value map built by
`RecordToMap` (Go map assignment `out[fn] = val`). -/
def mapSet (m : List (List Nat × GoValue)) (k : List Nat) (v : GoValue) :
    List (List Nat × GoValue) :=
  if m.any (fun p => p.1 = k) then
    m.map (fun p => if p.1 = k then (k, v) else p)
  else m ++ [(k, v)]

/-- Result of `RecordToMap` — Go's `(map[string]interface{}, error)`
pair plus the (mutated) `DBF` state, since `RecordToMap` moves the
cursor through `GoTo`.  `out = none` models a `nil` map. -/
inductive MapResult where
  | crash
  | res (dbf : DBF) (out : Option (List (List Nat × GoValue))) (err : Option DbfError)

/-- The field loop of `RecordToMap`: one `dbf.Field(i)` call per field
name; a field error is wrapped (`fmt.Errorf("error on field ...")`) and
returned with the map built so far. -/
def DBF.rtmLoop (dbf : DBF) (names : List (List Nat)) :
    Nat → Nat → List (List Nat × GoValue) → MapResult
  | 0, _, out => .res dbf (some out) none
  | n + 1, i, out =>
    match dbf.Field (i : Int) with
    | .crash => .crash
    | .err e => .res dbf (some out) (some (.errOnField i e))
    | .ok v => dbf.rtmLoop names n (i + 1) (mapSet out ((names.get? i).getD []) v)

/-- `DBF.RecordToMap`: `nrec` is a `uint32`, so `nrec <= 0` holds
exactly for `nrec = 0`, in which case the record under the cursor is
read; otherwise, if `nrec` differs from the cursor, `GoTo(nrec)` moves
the cursor first (and its `ErrEOF` aborts with a `nil` map). -/
def DBF.RecordToMap (dbf : DBF) (nrec : Nat) : MapResult :=
  let step : DBF × Option DbfError :=
    if nrec = 0 then (dbf, none)
    else if nrec ≠ dbf.recpointer then dbf.GoTo nrec
    else (dbf, none)
  match step.2 with
  | some e => .res step.1 none (some e)
  | none => step.1.rtmLoop step.1.FieldNames step.1.fields.length 0 []

/-- `validFileVersion`: only versions `0x30` and `0x31` are accepted. -/
def validFileVersion (version : Nat) : Option DbfError :=
  if version = 48 ∨ version = 49 then none else some (.errUntestedVersion version)

/-- `readDBFHeader`: `binary.Read(r, binary.LittleEndian, h)` fills the
30-byte `DBFHeader` struct from offset 0 (`binary.Read` fails on a
short source). -/
def readDBFHeader (r : List Nat) : Except DbfError DBFHeader :=
  if r.length < 30 then .error (.ioError "unexpected EOF")
  else
    .ok
      { fileVersion := byteAt r 0
        modYear := byteAt r 1
        modMonth := byteAt r 2
        modDay := byteAt r 3
        numRec := uint32le (r.drop 4)
        firstRec := uint16le (r.drop 8)
        recLen := uint16le (r.drop 10)
        reserved := (r.drop 12).take 16
        tableFlags := byteAt r 28
        codePage := byteAt r 29 }

/-- One 32-byte field descriptor, parsed by
`binary.Read(r, binary.LittleEndian, &field)` — which consumes **33**
bytes for the `FieldHeader` struct (its encoded size); the extra byte
lands in `Reserved` and the loop then re-seeks to the 32-byte
boundary. -/
def parseFieldHeader (b : List Nat) : FieldHeader :=
  { name := b.take 11
    type := byteAt b 11
    pos := uint32le (b.drop 12)
    len := byteAt b 16
    decimals := byteAt b 17
    flags := byteAt b 18
    next := uint32le (b.drop 19)
    step := uint16le (b.drop 23)
    reserved := (b.drop 25).take 8 }

/-- The `readHeaderFields` loop: peek one byte at `offset`; `0x0D`
terminates; otherwise parse a descriptor and advance by 32.  `fuel` is
the standard embedding device for the Go `for` loop; `r.length + 1`
iterations always suffice because each iteration needs `offset <
r.length` and `offset` grows by 32. -/
def readHeaderFieldsAux (r : List Nat) :
    Nat → Nat → List FieldHeader → Except DbfError (List FieldHeader)
  | 0, _, _ => .error (.ioError "unexpected EOF")
  | fuel + 1, offset, acc =>
    match r.get? offset with
    | none => .error (.ioError "EOF")
    | some b =>
      if b = 13 then .ok acc
      else if offset + 33 ≤ r.length then
        readHeaderFieldsAux r fuel (offset + 32)
          (acc ++ [parseFieldHeader ((r.drop offset).take 33)])
      else .error (.ioError "unexpected EOF")

/-- `readHeaderFields`: descriptors from offset 32 up to the `0x0D`
terminator. -/
def readHeaderFields (r : List Nat) : Except DbfError (List FieldHeader) :=
  readHeaderFieldsAux r (r.length + 1) 32 []

/-- `prepareDBF`: header, version check, field descriptors. -/
def prepareDBF (r : List Nat) (dec : List Nat → Except Unit (List Nat)) :
    Except DbfError DBF := do
  let header ← readDBFHeader r
  match validFileVersion header.fileVersion with
  | some e => .error e
  | none => do
    let fields ← readHeaderFields r
    pure
      { header := header
        fptheader := none
        r := r
        fptr := none
        dec := dec
        fields := fields
        recpointer := 0 }

/-- `readFPTHeader`: `binary.Read(r, binary.BigEndian, h)` fills the
8-byte `FPTHeader` from offset 0 of the memo source (`binary.Read`
reads via `io.ReadFull`; fewer than 8 bytes is an error). -/
def readFPTHeader (m : MemoReader) : Except DbfError FPTHeader :=
  match m.seek 0 with
  | some e => .error (.ioError e)
  | none =>
    let res := m.read 0 8
    match res.2 with
    | some e => .error (.ioError e)
    | none =>
      let b := res.1.take 8
      if b.length < 8 then .error (.ioError "unexpected EOF")
      else
        .ok
          { nextFree := uint32be b
            unused := (b.drop 4).take 2
            blockSize := 256 * byteAt b 6 + byteAt b 7 }

/-- `DBF.prepareFPT`. -/
def DBF.prepareFPT (dbf : DBF) (fptfile : MemoReader) : Except DbfError DBF := do
  let fptheader ← readFPTHeader fptfile
  pure { dbf with fptr := some fptfile, fptheader := some fptheader }

/-- `OpenStream`: parse the primary source; when the header's memo flag
(bit `0x02` of the table flags) is set, a memo source is mandatory —
its absence is `ErrNoFPTFile` — and its header is parsed. -/
def OpenStream (dbffile : List Nat) (fptfile : Option MemoReader)
    (dec : List Nat → Except Unit (List Nat)) : Except DbfError DBF := do
  let dbf ← prepareDBF dbffile dec
  if dbf.header.tableFlags &&& 2 ≠ 0 then
    match fptfile with
    | none => .error .errNoFPTFile
    | some m => dbf.prepareFPT m
  else
    pure dbf

/-! ## Concrete instances used by the witnesses and counterexamples -/

/-- An `L` (logical) field descriptor, 1 byte at record offset 1. -/
def fldL : FieldHeader := ⟨[76,0,0,0,0,0,0,0,0,0,0], 76, 1, 1, 0, 0, 0, 0, List.replicate 8 0⟩

/-- An `I` (integer) field descriptor, 4 bytes at record offset 1. -/
def fldI : FieldHeader := ⟨[73,68,0,0,0,0,0,0,0,0,0], 73, 1, 4, 0, 0, 0, 0, List.replicate 8 0⟩

/-- An `N` (numeric, 0 decimals) field descriptor, 2 bytes at offset 5. -/
def fldN : FieldHeader := ⟨[78,0,0,0,0,0,0,0,0,0,0], 78, 5, 2, 0, 0, 0, 0, List.replicate 8 0⟩

/-- A `Y` (currency) field descriptor, 8 bytes at record offset 1. -/
def fldY : FieldHeader := ⟨[89,0,0,0,0,0,0,0,0,0,0], 89, 1, 8, 0, 0, 0, 0, List.replicate 8 0⟩

/-- An `M` (memo) field descriptor, 4 bytes at record offset 1. -/
def fldM : FieldHeader := ⟨[77,0,0,0,0,0,0,0,0,0,0], 77, 1, 4, 0, 0, 0, 0, List.replicate 8 0⟩

/-- A one-field, one-record table (`L` field; record `[0x20, 'T']` at
offset 1). -/
def exDBF1 : DBF :=
  { header := ⟨48,0,0,0,1,1,2,List.replicate 16 0,0,0⟩
    fptheader := none
    r := [0, 32, 84]
    fptr := none
    dec := UTF8Decoder
    fields := [fldL]
    recpointer := 0 }

/-- An already-decoded one-field row. -/
def exRec1 : Record := ⟨false, [some (.boolean true)]⟩

/-- A two-field (`I`, then `N` with 0 decimals), one-record table whose
record bytes hold `"xx"` in the numeric field — a field decode error. -/
def exDBF2 : DBF :=
  { header := ⟨48,0,0,0,1,0,7,List.replicate 16 0,0,0⟩
    fptheader := none
    r := [32, 1, 0, 0, 0, 120, 120]
    fptr := none
    dec := UTF8Decoder
    fields := [fldI, fldN]
    recpointer := 0 }

/-- A memo reader whose 8-byte header `Read` legally returns only 4
bytes (`io.Reader` allows short reads without an error). -/
def shortHeadReader : MemoReader :=
  { seek := fun _ => none
    read := fun p n => if p = 0 ∧ n = 8 then ([0,0,0,1], none) else ([], some "eof") }

/-- A table wired to `shortHeadReader`. -/
def exDBF3 : DBF :=
  { header := ⟨48,0,0,0,0,0,0,List.replicate 16 0,2,0⟩
    fptheader := some ⟨0,[0,0],1⟩
    r := []
    fptr := some shortHeadReader
    dec := UTF8Decoder
    fields := []
    recpointer := 0 }

/-- A memo reader with a full 8-byte block header declaring a 5-byte
payload of which only 3 bytes arrive (payload short read, no error). -/
def shortPayloadReader : MemoReader :=
  { seek := fun _ => none
    read := fun p n =>
      if p = 0 ∧ n = 8 then ([0,0,0,1,0,0,0,5], none)
      else if p = 8 ∧ n = 5 then ([1,2,3], none)
      else ([], some "eof") }

/-- A table wired to `shortPayloadReader`. -/
def exDBF3b : DBF :=
  { header := ⟨48,0,0,0,0,0,0,List.replicate 16 0,2,0⟩
    fptheader := some ⟨0,[0,0],1⟩
    r := []
    fptr := some shortPayloadReader
    dec := UTF8Decoder
    fields := []
    recpointer := 0 }

/-- A one-field table with a currency (`Y`) column. -/
def exDBFY : DBF :=
  { header := ⟨48,0,0,0,1,0,9,List.replicate 16 0,0,0⟩
    fptheader := none
    r := [32,0,0,0,0,0,0,0,128]
    fptr := none
    dec := UTF8Decoder
    fields := [fldY]
    recpointer := 0 }

/-- The currency raw value whose most significant bit is set:
little-endian it denotes `2^63` unsigned, `-2^63` signed. -/
def yRawNeg : List Nat := [0,0,0,0,0,0,0,128]

/-- The decoded currency value as claim C4 words it: the raw bytes as a
little-endian **signed** 64-bit integer, divided by 10000.  (This
definition follows the claim, not the source; the source uses
`binary.LittleEndian.Uint64`, i.e. the unsigned interpretation.) -/
def claimCurrencyValue (raw : List Nat) : ℚ :=
  (int64ofUint (uint64le raw) : ℚ) / 10000

/-- A five-record table with the cursor on record 1 (used for `Skip`). -/
def exDBF5 : DBF :=
  { header := ⟨48,0,0,0,5,0,0,List.replicate 16 0,0,0⟩
    fptheader := none
    r := []
    fptr := none
    dec := UTF8Decoder
    fields := []
    recpointer := 1 }

/-- A memo reader holding one block with a zero-length text payload. -/
def memoZeroReader : MemoReader :=
  { seek := fun _ => none
    read := fun p n => if p = 0 ∧ n = 8 then ([0,0,0,1,0,0,0,0], none) else ([], some "eof") }

/-- A one-memo-field table wired to `memoZeroReader`. -/
def exDBF7 : DBF :=
  { header := ⟨48,0,0,0,1,0,5,List.replicate 16 0,2,0⟩
    fptheader := some ⟨0,[0,0],1⟩
    r := [32,0,0,0,0]
    fptr := some memoZeroReader
    dec := UTF8Decoder
    fields := [fldM]
    recpointer := 0 }

/-- A 33-byte primary stream: version `0x30`, memo flag set
(`TableFlags = 0x02` at offset 28), field terminator `0x0D` at
offset 32 — a well-formed empty table requiring a memo file. -/
def streamMemoFlag : List Nat := (List.replicate 28 0).set 0 48 ++ [2, 0, 0, 0, 13]

/-- A one-field (`L`), two-record table (records at offsets 1 and 3). -/
def exDBF10 : DBF :=
  { header := ⟨48,0,0,0,2,1,2,List.replicate 16 0,0,0⟩
    fptheader := none
    r := [0, 32, 84, 32, 70]
    fptr := none
    dec := UTF8Decoder
    fields := [fldL]
    recpointer := 0 }

/-! ## Helper lemmas -/

/-- `wrap64` is the identity on the `int64` range. -/
theorem wrap64_self (x : Int) (h1 : -(2 ^ 63) ≤ x) (h2 : x < 2 ^ 63) :
    wrap64 x = x := by
  unfold wrap64
  omega

/-- `wrap64` subtracts `2^64` just above the `int64` range. -/
theorem wrap64_big (x : Int) (h1 : 2 ^ 63 ≤ x) (h2 : x < 2 ^ 63 + 2 ^ 64) :
    wrap64 x = x - 2 ^ 64 := by
  unfold wrap64
  omega

/-- The `RecordToMap` field loop never changes the `DBF` state it
reports back. -/
theorem rtmLoop_state (dbf : DBF) (names : List (List Nat)) :
    ∀ (n i : Nat) (out : List (List Nat × GoValue)) (d : DBF)
      (o : Option (List (List Nat × GoValue))) (e : Option DbfError),
      dbf.rtmLoop names n i out = .res d o e → d = dbf := by
  intro n
  induction n with
  | zero => exact fun i out d o e h => by simp only [DBF.rtmLoop] at h; cases h; rfl
  | succ m ih =>
    refine fun i out d o e h => ?_
    simp only [DBF.rtmLoop] at h
    cases hf : dbf.Field (i : Int) with
    | crash => rw [hf] at h; cases h
    | err e' => rw [hf] at h; cases h; rfl
    | ok v => rw [hf] at h; exact ih _ _ _ _ _ h

/-- The `bytesToRecord` field loop, whenever it reports an error, also
reports a (partially filled) record — never a `nil` one. -/
theorem b2rLoop_some (dbf : DBF) (data : List Nat) (del : Bool) :
    ∀ (n i offset : Nat) (vals : List (Option GoValue)) (orec : Option Record)
      (e : DbfError),
      dbf.b2rLoop data del n i offset vals = .res orec (some e) →
      ∃ rec : Record, orec = some rec := by
  intro n
  induction n with
  | zero => exact fun i offset vals orec e h => by simp only [DBF.b2rLoop] at h; cases h
  | succ m ih =>
    refine fun i offset vals orec e h => ?_
    simp only [DBF.b2rLoop] at h
    split at h
    · cases h
    · split at h
      · split at h
        · cases h
        · cases h; exact ⟨_, rfl⟩
        · exact ih _ _ _ _ _ h
      · cases h

/-! ## Claim theorems -/

/-- C5 counterexample: from position 1 of a 5-record table,
`Skip(2^63 - 1)` has `position + offset = 2^63 + ... ≥ record_count`,
so the claim demands clamping to `record_count = 5` with the
end-of-file condition; the Go `int64` addition overflows instead, and
the call clamps to 0 with the beginning-of-file condition. -/
theorem c5_overflow_counterexample :
    (exDBF5.Skip (2 ^ 63 - 1)).2 = some .errBOF ∧
    (exDBF5.Skip (2 ^ 63 - 1)).1.recpointer = 0 ∧
    (exDBF5.header.numRec : Int) ≤ (exDBF5.recpointer : Int) + (2 ^ 63 - 1) := by
  decide

/-- C5 (amended): for every signed 64-bit offset `k` whose sum with the
cursor position stays within the `int64` range, `Skip(k)` computes
`position + k` and clamps/fails exactly as the claim states; both
failure branches still move the position to the clamped boundary. -/
theorem c5_skip_clamping (dbf : DBF) (k : Int)
    (hk : -(2 ^ 63) ≤ k) (hov : (dbf.recpointer : Int) + k < 2 ^ 63) :
    ((dbf.header.numRec : Int) ≤ (dbf.recpointer : Int) + k →
      dbf.Skip k = ({ dbf with recpointer := dbf.header.numRec }, some .errEOF)) ∧
    ((dbf.recpointer : Int) + k < 0 →
      dbf.Skip k = ({ dbf with recpointer := 0 }, some .errBOF)) ∧
    (0 ≤ (dbf.recpointer : Int) + k → (dbf.recpointer : Int) + k < (dbf.header.numRec : Int) →
      dbf.Skip k = ({ dbf with recpointer := ((dbf.recpointer : Int) + k).toNat }, none)) := by
  have hw : wrap64 ((dbf.recpointer : Int) + k) = (dbf.recpointer : Int) + k :=
    wrap64_self _ (by omega) hov
  refine ⟨?_, ?_, ?_⟩
  · intro h
    simp only [DBF.Skip, hw]
    rw [if_pos h]
  · intro h
    simp only [DBF.Skip, hw]
    rw [if_neg (by omega), if_pos h]
  · intro h1 h2
    simp only [DBF.Skip, hw]
    rw [if_neg (by omega), if_neg (by omega)]

/-- Witness for `c5_skip_clamping`: skipping 10 from position 1 of the
5-record table clamps to 5 and reports end-of-file. -/
theorem c5_skip_clamping_witness :
    exDBF5.Skip 10 = ({ exDBF5 with recpointer := exDBF5.header.numRec }, some .errEOF) :=
  (c5_skip_clamping exDBF5 10 (by decide) (by decide)).1 (by decide)

/-- C9: `skip(k)` followed by `skip(-k)` returns the cursor to its
starting position whenever both calls succeed (no clamping). -/
theorem c9_skip_inverse (dbf d1 d2 : DBF) (k : Int)
    (hp : dbf.recpointer < 2 ^ 32) (hn : dbf.header.numRec < 2 ^ 32)
    (hk1 : -(2 ^ 63) ≤ k) (hk2 : k < 2 ^ 63)
    (h1 : dbf.Skip k = (d1, none)) (h2 : d1.Skip (-k) = (d2, none)) :
    d2.recpointer = dbf.recpointer := by
  simp only [DBF.Skip] at h1
  split at h1
  · simp at h1
  · split at h1
    · simp at h1
    · rename_i hc1 hc2
      have hww : wrap64 ((dbf.recpointer : Int) + k) = (dbf.recpointer : Int) + k := by
        by_cases hbig : (dbf.recpointer : Int) + k < 2 ^ 63
        · exact wrap64_self _ (by omega) hbig
        · exfalso
          have : wrap64 ((dbf.recpointer : Int) + k) = (dbf.recpointer : Int) + k - 2 ^ 64 :=
            wrap64_big _ (by omega) (by omega)
          omega
      rw [hww] at hc1 hc2 h1
      have h0 : 0 ≤ (dbf.recpointer : Int) + k := by omega
      rw [Prod.mk.injEq] at h1
      obtain ⟨h1d, -⟩ := h1
      subst h1d
      simp only [DBF.Skip] at h2
      rw [Int.toNat_of_nonneg h0] at h2
      rw [show (dbf.recpointer : Int) + k + -k = (dbf.recpointer : Int) by ring] at h2
      rw [wrap64_self _ (by omega) (by omega)] at h2
      split at h2
      · simp at h2
      · split at h2
        · simp at h2
        · rw [Prod.mk.injEq] at h2
          obtain ⟨h2d, -⟩ := h2
          subst h2d
          simp

/-- Witness for `c9_skip_inverse`: `Skip 2` then `Skip (-2)` from
position 1 of the 5-record table lands back on position 1. -/
theorem c9_skip_inverse_witness :
    ((exDBF5.Skip 2).1.Skip (-2)).1.recpointer = exDBF5.recpointer :=
  c9_skip_inverse exDBF5 _ _ 2 (by decide) (by decide) (by decide) (by decide) rfl rfl

/-- C1 (code bug): the bounds checks of `readField` and `Record.Field`
are off by one (`fieldpos > NumFields` / `len(r.data) < pos` instead of
`≥` / `≤`).  On the one-field table, field position 1 (= `NumFields`)
passes the check and the subsequent `dbf.fields[1]` / `r.data[1]`
access is out of range — a runtime panic, not the invalid-field error
the claim (and the spec) require; positions 2 and −1 show that the
check does fire strictly beyond the boundary. -/
theorem c1_field_bounds_off_by_one :
    exDBF1.NumFields = 1 ∧
    exDBF1.readField 0 1 = .crash ∧
    exDBF1.readField 0 2 = .err .errInvalidField ∧
    exDBF1.readField 0 (-1) = .err .errInvalidField ∧
    exRec1.data.length = 1 ∧
    exRec1.Field 1 = .crash ∧
    exRec1.Field 2 = .err .errInvalidField := by
  decide

/-- C2 counterexample: on the table whose second field is numeric and
whose record bytes hold `"xx"` there, `RecordAt` propagates the decode
error of field 1 — but **returns the partially decoded row with it**
(field 0 already holds `int32(1)`), contradicting "no Row value". -/
theorem c2_partial_row_counterexample :
    exDBF2.RecordAt 0 =
      .res (some ⟨false, [some (.i32 1), none]⟩) (some (.parseError "invalid syntax")) := by
  decide

/-- C2 (amended): a field decode error makes `bytesToRecord` return the
error and stop decoding — but together with the partially decoded
record (never a `nil` record): whenever the delete flag was legal and
an error comes back, the record slot is `some`. -/
theorem c2_error_returns_partial_record (dbf : DBF) (data : List Nat) (b0 : Nat)
    (hh : data.head? = some b0) (hflag : b0 = 42 ∨ b0 = 32)
    (orec : Option Record) (e : DbfError)
    (hres : dbf.bytesToRecord data = .res orec (some e)) :
    ∃ rec : Record, orec = some rec := by
  simp only [DBF.bytesToRecord, hh] at hres
  rcases hflag with h | h
  · rw [if_neg (by simp [h])] at hres
    exact b2rLoop_some dbf data _ _ _ _ _ _ _ hres
  · rw [if_neg (by simp [h])] at hres
    exact b2rLoop_some dbf data _ _ _ _ _ _ _ hres

/-- Witness for `c2_error_returns_partial_record` at the concrete
record of `exDBF2`. -/
theorem c2_error_returns_partial_record_witness :
    ∃ rec : Record,
      (some ⟨false, [some (.i32 1), none]⟩ : Option Record) = some rec :=
  c2_error_returns_partial_record exDBF2 [32, 1, 0, 0, 0, 120, 120] 32 rfl (Or.inr rfl)
    (some ⟨false, [some (.i32 1), none]⟩) (.parseError "invalid syntax") (by decide)

/-- C4 counterexample: the currency byte pattern `0x80` in the top byte
denotes `-2^63` as the little-endian *signed* integer the claim
speaks of (so the claim demands a negative amount), but the code
decodes with `binary.LittleEndian.Uint64` and yields the positive value
`2^63 / 10000`. -/
theorem c4_currency_unsigned_counterexample :
    exDBFY.fieldDataToValue yRawNeg 0 = .ok (.f64 ((9223372036854775808 : ℚ) / 10000)) ∧
    claimCurrencyValue yRawNeg = -((9223372036854775808 : ℚ) / 10000) ∧
    ¬((9223372036854775808 : ℚ) / 10000 = -((9223372036854775808 : ℚ) / 10000)) := by
  have hu : uint64le yRawNeg = 9223372036854775808 := by decide
  refine ⟨?_, ?_, by norm_num⟩
  · simp only [DBF.fieldDataToValue, exDBFY, fldY]
    norm_num [hu]
    intro h
    exact absurd h (by decide)
  · simp only [claimCurrencyValue, int64ofUint, hu]
    norm_num

/-- C4 (amended): a `Y` value decodes to the little-endian **unsigned**
64-bit integer divided by 10000; the result is never negative, and a
most-significant-bit-set pattern comes out as the claim's signed value
shifted up by `2^64 / 10000` — a large positive amount. -/
theorem c4_currency_unsigned (dbf : DBF) (i : Nat) (f : FieldHeader) (raw : List Nat)
    (hf : dbf.fields.get? i = some f) (ht : f.type = 89) (hlen : 8 ≤ raw.length) :
    dbf.fieldDataToValue raw i = .ok (.f64 ((uint64le raw : ℚ) / 10000)) ∧
    0 ≤ ((uint64le raw : ℚ) / 10000) ∧
    (2 ^ 63 ≤ uint64le raw →
      (uint64le raw : ℚ) / 10000 = claimCurrencyValue raw + (2 ^ 64 : ℚ) / 10000) := by
  have hilt : i < dbf.fields.length := by
    by_contra hc
    rw [List.get?_eq_none.mpr (by omega)] at hf
    cases hf
  refine ⟨?_, by positivity, ?_⟩
  · simp only [DBF.fieldDataToValue]
    rw [if_neg (by push_neg; omega)]
    rw [Int.toNat_natCast, hf]
    dsimp only
    rw [ht]
    norm_num
    intro hbad
    exact absurd hbad (by omega)
  · intro hmsb
    unfold claimCurrencyValue int64ofUint
    rw [if_neg (by omega)]
    push_cast
    ring

/-- Witness for `c4_currency_unsigned` at the concrete `Y` field. -/
theorem c4_currency_unsigned_witness :
    exDBFY.fieldDataToValue yRawNeg 0 = .ok (.f64 ((uint64le yRawNeg : ℚ) / 10000)) :=
  (c4_currency_unsigned exDBFY 0 fldY yRawNeg rfl rfl (by decide)).1

/-- C6: for every 8-byte `T` value, when the Julian-day word converts
to a year outside `[0, 9999]` the decoder returns the zero datetime
and no error; inside the range it returns the converted datetime (also
without error) — and, unlike this single tolerance, the other string
decoders propagate malformed input as errors (shown for a malformed
numeric field and an out-of-range date month). -/
theorem c6_datetime_year_tolerance (dbf : DBF) (raw : List Nat) (h8 : raw.length = 8) :
    (((jd.J2YMD (uint32le (raw.take 4))).1 < 0 ∨ 9999 < (jd.J2YMD (uint32le (raw.take 4))).1) →
      dbf.parseDateTime raw = .ok .zero) ∧
    (¬((jd.J2YMD (uint32le (raw.take 4))).1 < 0 ∨ 9999 < (jd.J2YMD (uint32le (raw.take 4))).1) →
      dbf.parseDateTime raw =
        .ok (.date (jd.J2YMD (uint32le (raw.take 4))).1 (jd.J2YMD (uint32le (raw.take 4))).2.1
          (jd.J2YMD (uint32le (raw.take 4))).2.2 ((uint32le (raw.drop 4) : Int) * 1000000))) ∧
    dbf.parseNumericInt [120, 120] = .error (.parseError "invalid syntax") ∧
    dbf.parseDate [49, 57, 57, 57, 49, 51, 48, 49] = .error (.parseError "cannot parse date") := by
  refine ⟨?_, ?_, rfl, rfl⟩
  · intro hy
    simp only [DBF.parseDateTime, h8]
    rw [if_neg (by omega), if_pos hy]
  · intro hy
    simp only [DBF.parseDateTime, h8]
    rw [if_neg (by omega), if_neg hy]

/-- Witness for `c6_datetime_year_tolerance`: Julian day 0 converts to
year −4713, so the all-zero raw value decodes to the zero datetime. -/
theorem c6_datetime_year_tolerance_witness :
    exDBF1.parseDateTime [0, 0, 0, 0, 0, 0, 0, 0] = .ok .zero :=
  (c6_datetime_year_tolerance exDBF1 [0, 0, 0, 0, 0, 0, 0, 0] rfl).1 (by decide)

/-- C7: a memo block whose header declares payload length 0 resolves to
an empty payload with no error; when the block signature marks text (1)
and the decoder maps empty input to empty output (both shipped decoders
do), an `M` field referencing the block decodes to the empty text
value. -/
theorem c7_zero_length_memo (dbf : DBF) (r : MemoReader) (fh : FPTHeader)
    (blockdata hb : List Nat) (i : Nat) (f : FieldHeader)
    (hfptr : dbf.fptr = some r) (hfh : dbf.fptheader = some fh)
    (hlen : 4 ≤ blockdata.length)
    (hseek : r.seek (fh.blockSize * uint32le blockdata) = none)
    (hread : r.read (fh.blockSize * uint32le blockdata) 8 = (hb, none))
    (hhb : hb.length = 8)
    (hzero : hb.drop 4 = [0, 0, 0, 0]) :
    dbf.readFPT blockdata = .ret [] (uint32be (hb.take 4) == 1) none ∧
    (uint32be (hb.take 4) = 1 → dbf.dec [] = .ok [] →
      dbf.fields.get? i = some f → f.type = 77 →
      dbf.fieldDataToValue blockdata i = .ok (.str [])) := by
  have htake : hb.take 8 = hb := List.take_of_length_le (by omega)
  have hmain : dbf.readFPT blockdata = .ret [] (uint32be (hb.take 4) == 1) none := by
    simp only [DBF.readFPT, hfptr, hfh]
    rw [if_neg (by omega)]
    simp only [hseek, hread, htake, hhb]
    norm_num [List.append_nil, hzero, uint32be, byteAt]
  refine ⟨hmain, ?_⟩
  intro hsig hdec hf ht
  have hilt : i < dbf.fields.length := by
    by_contra hc
    rw [List.get?_eq_none.mpr (by omega)] at hf
    cases hf
  simp only [DBF.fieldDataToValue]
  rw [if_neg (by push_neg; omega)]
  rw [Int.toNat_natCast, hf]
  dsimp only
  rw [if_pos ht]
  simp only [DBF.parseMemo, hmain, hsig]
  simp [hdec]

/-- Witness for `c7_zero_length_memo`: the concrete one-memo-field
table whose block 0 header is `(signature 1, length 0)` yields the
empty text value. -/
theorem c7_zero_length_memo_witness :
    exDBF7.fieldDataToValue [0, 0, 0, 0] 0 = .ok (.str []) :=
  (c7_zero_length_memo exDBF7 memoZeroReader ⟨0, [0, 0], 1⟩ [0, 0, 0, 0]
      [0, 0, 0, 1, 0, 0, 0, 0] 0 fldM rfl rfl (by decide) rfl rfl rfl rfl).2
    (by decide) rfl rfl rfl

/-- C8: opening from pre-supplied byte sources whose parsed table
header has the memo flag bit (`0x02`) set, with no memo source
supplied, fails with `ErrNoFPTFile` (the embedded `OpenStream` contains
no record access at all: it only parses the header area). -/
theorem c8_missing_memo_source (r : List Nat) (dec : List Nat → Except Unit (List Nat))
    (dbf : DBF) (hprep : prepareDBF r dec = .ok dbf)
    (hflag : dbf.header.tableFlags &&& 2 ≠ 0) :
    OpenStream r none dec = .error .errNoFPTFile := by
  simp only [OpenStream, hprep, Except.bind, bind]
  rw [if_pos hflag]

/-- Witness for `c8_missing_memo_source`: the 33-byte stream with the
memo flag set parses fine but `OpenStream` without a memo source
reports the missing companion file. -/
theorem c8_missing_memo_source_witness :
    OpenStream streamMemoFlag none UTF8Decoder = .error .errNoFPTFile :=
  c8_missing_memo_source streamMemoFlag UTF8Decoder
    { header := ⟨48, 0, 0, 0, 0, 0, 0, List.replicate 16 0, 2, 0⟩
      fptheader := none
      r := streamMemoFlag
      fptr := none
      dec := UTF8Decoder
      fields := []
      recpointer := 0 }
    rfl (by decide)

/-- C10: a successful `RecordToMap(nrec)` with `nrec > 0` different
from the cursor moves the cursor to `nrec` (via `GoTo`); and since
`nrec` is unsigned, `nrec = 0` never addresses record 0 by number —
`RecordToMap 0` behaves exactly like projecting the record the cursor
currently points at. -/
theorem c10_record_to_map_cursor :
    (∀ (dbf d : DBF) (nrec : Nat) (out : Option (List (List Nat × GoValue))),
      0 < nrec → nrec ≠ dbf.recpointer →
      dbf.RecordToMap nrec = .res d out none → d.recpointer = nrec) ∧
    (∀ dbf : DBF, dbf.RecordToMap 0 = dbf.RecordToMap dbf.recpointer) := by
  constructor
  · intro dbf d nrec out h0 hne hres
    simp only [DBF.RecordToMap] at hres
    rw [if_neg (by omega), if_pos hne] at hres
    simp only [DBF.GoTo] at hres
    by_cases hc : dbf.header.numRec ≤ nrec
    · rw [if_pos hc] at hres
      simp at hres
    · rw [if_neg hc] at hres
      simp only at hres
      have hd := rtmLoop_state _ _ _ _ _ _ _ _ hres
      rw [hd]
  · intro dbf
    by_cases hp : dbf.recpointer = 0
    · rw [hp]
    · simp [DBF.RecordToMap, hp]

/-- Witness for `c10_record_to_map_cursor`: projecting record 1 of the
two-record table moves the cursor from 0 to 1. -/
theorem c10_record_to_map_cursor_witness :
    ({ exDBF10 with recpointer := 1 } : DBF).recpointer = 1 :=
  c10_record_to_map_cursor.1 exDBF10 _ 1 _ (by decide) (by decide) rfl

/-- C3 counterexample: a memo reader that (legally, per the `io.Reader`
contract) delivers only 4 of the 8 header bytes without an error.  The
claim demands `ErrIncomplete`; `readFPT` instead treats the missing
header bytes as zero and returns an empty text payload with **no
error** at all. -/
theorem c3_short_header_counterexample :
    (shortHeadReader.read 0 8).1.length = 4 ∧
    (shortHeadReader.read 0 8).2 = none ∧
    exDBF3.readFPT [0, 0, 0, 0] = .ret [] true none := by
  decide

/-- C3 (amended): a short read of the **payload** (fewer bytes than the
header-declared length, without an underlying error) yields
`ErrIncomplete`, which is distinct from every propagated I/O error; a
short read of the 8-byte block header is *not* detected — its byte
count is discarded and missing header bytes read as zero. -/
theorem c3_short_payload_incomplete (dbf : DBF) (r : MemoReader) (fh : FPTHeader)
    (blockdata hb pb : List Nat) (leng : Nat)
    (hfptr : dbf.fptr = some r) (hfh : dbf.fptheader = some fh)
    (hlen : 4 ≤ blockdata.length)
    (hseek : r.seek (fh.blockSize * uint32le blockdata) = none)
    (hhead : r.read (fh.blockSize * uint32le blockdata) 8 = (hb, none))
    (hhb : hb.length = 8)
    (hleng : uint32be (hb.drop 4) = leng) (hlz : leng ≠ 0)
    (hpay : r.read (fh.blockSize * uint32le blockdata + 8) leng = (pb, none))
    (hshort : pb.length < leng) :
    dbf.readFPT blockdata =
      .ret (pb ++ List.replicate (leng - pb.length) 0) (uint32be (hb.take 4) == 1)
        (some .errIncomplete) ∧
    ∀ s, (DbfError.errIncomplete : DbfError) ≠ .ioError s := by
  have htake : hb.take 8 = hb := List.take_of_length_le (by omega)
  have hptake : pb.take leng = pb := List.take_of_length_le (by omega)
  refine ⟨?_, fun s h => by cases h⟩
  simp only [DBF.readFPT, hfptr, hfh]
  rw [if_neg (by omega)]
  simp only [hseek, hhead, htake, hhb]
  norm_num
  simp only [hleng]
  rw [if_neg hlz]
  simp only [hpay, hptake]
  rw [if_pos hshort, Nat.min_eq_right (Nat.le_of_lt hshort)]

/-- Witness for `c3_short_payload_incomplete`: the reader whose block 0
declares 5 payload bytes but supplies 3 produces `ErrIncomplete` with
the zero-padded partial buffer. -/
theorem c3_short_payload_incomplete_witness :
    exDBF3b.readFPT [0, 0, 0, 0] =
      .ret ([1, 2, 3] ++ List.replicate (5 - [1, 2, 3].length) 0)
        (uint32be ([0, 0, 0, 1, 0, 0, 0, 5].take 4) == 1) (some .errIncomplete) :=
  (c3_short_payload_incomplete exDBF3b shortPayloadReader ⟨0, [0, 0], 1⟩ [0, 0, 0, 0]
      [0, 0, 0, 1, 0, 0, 0, 5] [1, 2, 3] 5 rfl rfl (by decide) rfl rfl rfl rfl
      (by decide) rfl (by decide)).1
